import Mathlib

/-
Verification of the grid-indexed glyph layout and batched-rendering core of
the rroguelib repository.

Modelling conventions:
* Rust `f32` values are modelled exactly by `ℚ`; the arithmetic the code
  performs on them (`+`, `-`, `*`, `/`, `floor`, comparisons) is modelled by
  the corresponding exact rational operation.  `f32::floor` followed by the
  saturating Rust cast `as u32` is modelled by `Int.toNat ∘ Int.floor`
  (the value is already integral after `floor`, and the cast sends negative
  values to 0 exactly as `Int.toNat` does).
* Rust `u32` indices are modelled by `ℕ`; `%` and `/` on them are `Nat.mod`
  and `Nat.div`, except that Rust panics on a zero divisor, which is made
  explicit by the `checked` variants below.
* Rust panics (`expect`/`unwrap`) are modelled by `Except Panicked`.
* The font rasterizer (rusttype) is an external capability: it is modelled
  as a record of functions (advance width, pixel bounding box, vertical
  metrics) that the layout code consumes, with the drawing scale folded in.
* NFC normalization (`text.nfc()`, from the external unicode-normalization
  crate) is modelled by taking the already-normalized character sequence as
  the input of the layout functions.
-/

namespace Rogue

/-- Model of rusttype `Vector<T>` / `Point<T>`: a pair of coordinates. -/
structure Vector (α : Type) where
  x : α
  y : α
deriving DecidableEq

/-- Model of rusttype `Rect<T>`: minimum and maximum corner. -/
structure Rect (α : Type) where
  min : Vector α
  max : Vector α
deriving DecidableEq

/-- Model of `util.rs` `LineGrid`: screen size, cell size, padding (all f32,
modelled by ℚ) and the cell totals (`Vector<u32>`, modelled by ℕ pairs). -/
structure LineGrid where
  screen_dimensions : Vector ℚ
  grid_dimensions : Vector ℚ
  grid_padding : Vector ℚ
  totals : Vector ℕ
deriving DecidableEq

/-- Model of `LineGrid::new` in `util.rs`: the totals are
`floor((screen - padding) / cell)` cast to `u32`
(`Int.toNat ∘ Rat.floor` under the f32-as-ℚ convention; `Rat.floor`
agrees with the mathematical floor `⌊·⌋` by `Rat.floor_def'`). -/
def LineGrid.new (screen_dimensions grid_dimensions grid_padding : Vector ℚ) :
    LineGrid :=
  ⟨screen_dimensions, grid_dimensions, grid_padding,
   ⟨((screen_dimensions.x - grid_padding.x) / grid_dimensions.x).floor.toNat,
    ((screen_dimensions.y - grid_padding.y) / grid_dimensions.y).floor.toNat⟩⟩

/-- Model of `LineGrid::coordinates_for` in `util.rs`: the unguarded u32
`%` and `/` by `totals.x`, then scaling by the cell size and adding the
padding. -/
def LineGrid.coordinates_for (g : LineGrid) (index : ℕ) : Vector ℚ :=
  ⟨((index % g.totals.x : ℕ) : ℚ) * g.grid_dimensions.x + g.grid_padding.x,
   ((index / g.totals.x : ℕ) : ℚ) * g.grid_dimensions.y + g.grid_padding.y⟩

/-- Rust u32 `%` panics on a zero divisor; this makes that partiality
explicit. -/
def checked_mod (a b : ℕ) : Option ℕ :=
  if b = 0 then none else some (a % b)

/-- Rust u32 `/` panics on a zero divisor; this makes that partiality
explicit. -/
def checked_div (a b : ℕ) : Option ℕ :=
  if b = 0 then none else some (a / b)

/-- The body of `LineGrid::coordinates_for` with the panics of the u32
`%` and `/` operations made explicit: `none` models the Rust panic
"attempt to calculate the remainder with a divisor of zero". -/
def LineGrid.coordinates_for_checked (g : LineGrid) (index : ℕ) :
    Option (Vector ℚ) := do
  let x ← checked_mod index g.totals.x
  let y ← checked_div index g.totals.x
  pure ⟨(x : ℚ) * g.grid_dimensions.x + g.grid_padding.x,
        (y : ℚ) * g.grid_dimensions.y + g.grid_padding.y⟩

/-- Model of rusttype `VMetrics` at a fixed scale. -/
structure VMetrics where
  ascent : ℚ
  descent : ℚ
  line_gap : ℚ
deriving DecidableEq

/-- Model of the external rasterizer capability (rusttype font) with the
drawing scale folded in: advance width and pixel bounding box per character,
plus the vertical metrics.  The bounding box may depend on the position the
glyph is placed at, as in rusttype. -/
structure FontModel where
  advance_width : Char → ℚ
  pixel_bounding_box : Vector ℚ → Char → Option (Rect ℤ)
  v_metrics : VMetrics

/-- Model of rusttype `PositionedGlyph`: the character together with the
pixel position it was placed at. -/
structure PositionedGlyph where
  c : Char
  pos : Vector ℚ
deriving DecidableEq

/-- Model of rusttype `gpu_cache::CacheReadErr`: the error side of
`Cache::rect_for`. -/
inductive CacheErr where
  | glyphNotCached
deriving DecidableEq

/-- Model of `vertex.rs` `TextVertex`: clip-space position, texture
coordinates and an RGBA colour. -/
structure TextVertex where
  position : Vector ℚ
  tex_coords : Vector ℚ
  colour : List ℚ
deriving DecidableEq

/-- The clip-space rectangle computed inside `create_text_vb` in `util.rs`:
`origin + (vector(sx / screen_width - 0.5, 1.0 - sy / screen_height - 0.5)) * 2.0`
applied to the min and the max corner of the (i32) screen rectangle. -/
def gl_rect_of (screen_width screen_height : ℚ) (screen_rect : Rect ℤ) :
    Rect ℚ :=
  ⟨⟨((screen_rect.min.x : ℚ) / screen_width - 1/2) * 2,
    (1 - (screen_rect.min.y : ℚ) / screen_height - 1/2) * 2⟩,
   ⟨((screen_rect.max.x : ℚ) / screen_width - 1/2) * 2,
    (1 - (screen_rect.max.y : ℚ) / screen_height - 1/2) * 2⟩⟩

/-- Modelled from the spec: the screen-to-clip transform as the spec states
it, `clip.x = 2*(pixel.x/screen_width - 0.5)` and
`clip.y = 2*(1 - pixel.y/screen_height - 0.5)`, to be compared with
`gl_rect_of`. -/
def spec_clip (screen_width screen_height : ℚ) (pixel : Vector ℚ) :
    Vector ℚ :=
  ⟨2 * (pixel.x / screen_width - 1/2),
   2 * (1 - pixel.y / screen_height - 1/2)⟩

/-- The six-vertex block `create_text_vb` builds for one resolved glyph
(the `ArrayVec::from([...])` literal in `util.rs`), in source order. -/
def glyph_quad (uv_rect : Rect ℚ) (gl_rect : Rect ℚ) : List TextVertex :=
  [⟨⟨gl_rect.min.x, gl_rect.max.y⟩, ⟨uv_rect.min.x, uv_rect.max.y⟩, [1, 1, 1, 1]⟩,
   ⟨⟨gl_rect.min.x, gl_rect.min.y⟩, ⟨uv_rect.min.x, uv_rect.min.y⟩, [1, 1, 1, 1]⟩,
   ⟨⟨gl_rect.max.x, gl_rect.min.y⟩, ⟨uv_rect.max.x, uv_rect.min.y⟩, [1, 1, 1, 1]⟩,
   ⟨⟨gl_rect.max.x, gl_rect.min.y⟩, ⟨uv_rect.max.x, uv_rect.min.y⟩, [1, 1, 1, 1]⟩,
   ⟨⟨gl_rect.max.x, gl_rect.max.y⟩, ⟨uv_rect.max.x, uv_rect.max.y⟩, [1, 1, 1, 1]⟩,
   ⟨⟨gl_rect.min.x, gl_rect.max.y⟩, ⟨uv_rect.min.x, uv_rect.max.y⟩, [1, 1, 1, 1]⟩]

/-- Model of `create_text_vb` in `util.rs`: for each glyph, if the cache
lookup `rect_for` yields `Ok(Some((uv_rect, screen_rect)))` emit the six
quad vertices, otherwise (an `Err` or `Ok(None)`) emit nothing.  The
`flat_map` of the source is written as explicit recursion with `++`. -/
def create_text_vb (screen_width screen_height : ℚ)
    (rect_for : PositionedGlyph → Except CacheErr (Option (Rect ℚ × Rect ℤ))) :
    List PositionedGlyph → List TextVertex
  | [] => []
  | g :: rest =>
    (match rect_for g with
     | .ok (some (uv_rect, screen_rect)) =>
       glyph_quad uv_rect (gl_rect_of screen_width screen_height screen_rect)
     | _ => []) ++ create_text_vb screen_width screen_height rect_for rest

/-- Whether a cache lookup result is a resolved rectangle
(`Ok(Some(..))`). -/
def is_resolved (r : Except CacheErr (Option (Rect ℚ × Rect ℤ))) : Bool :=
  match r with
  | .ok (some _) => true
  | _ => false

/-- Positions of the first triangle (vertices 0, 1, 2) of a quad. -/
def tri1_positions (q : List TextVertex) : List (Vector ℚ) :=
  (q.take 3).map TextVertex.position

/-- Positions of the second triangle (vertices 3, 4, 5) of a quad. -/
def tri2_positions (q : List TextVertex) : List (Vector ℚ) :=
  (q.drop 3).map TextVertex.position

/-- The positions shared by the two triangles of a quad: the endpoints of
their common diagonal. -/
def shared_positions (q : List TextVertex) : List (Vector ℚ) :=
  (tri1_positions q).filter (fun p => (tri2_positions q).contains p)

/-- Z-component of the cross product of the triangle edges out of `p`:
its sign gives the triangle winding. -/
def tri_cross (p q r : Vector ℚ) : ℚ :=
  (q.x - p.x) * (r.y - p.y) - (q.y - p.y) * (r.x - p.x)

/-- Fallback vertex for out-of-range access. -/
def default_vertex : TextVertex := ⟨⟨0, 0⟩, ⟨0, 0⟩, []⟩

/-- Position of the i-th vertex of a quad. -/
def pos_at (q : List TextVertex) (i : ℕ) : Vector ℚ :=
  (q.getD i default_vertex).position

/-- Winding cross product of the first triangle of a quad. -/
def winding1 (q : List TextVertex) : ℚ :=
  tri_cross (pos_at q 0) (pos_at q 1) (pos_at q 2)

/-- Winding cross product of the second triangle of a quad. -/
def winding2 (q : List TextVertex) : ℚ :=
  tri_cross (pos_at q 3) (pos_at q 4) (pos_at q 5)

/-- Recursion of `layout_grid` in `util.rs`: each character is placed at
`grid.coordinates_for index`, with the index incremented per character. -/
def Util.layout_go (grid : LineGrid) : ℕ → List Char → List PositionedGlyph
  | _, [] => []
  | index, c :: rest =>
    ⟨c, grid.coordinates_for index⟩ :: Util.layout_go grid (index + 1) rest

/-- Model of `layout_grid` in `util.rs`: the index starts at
`grid.totals.x`.  The input list stands for the NFC-normalized character
sequence `text.nfc()` (normalization is the external unicode crate).  The
font and width parameters mirror the Rust signature; neither influences the
computed positions (the width parameter is `_width`, unused, in the
source). -/
def Util.layout_grid (font : FontModel) (width : ℕ) (grid : LineGrid)
    (text : List Char) : List PositionedGlyph :=
  Util.layout_go grid grid.totals.x text

/-- Recursion of the advance-based `layout_grid` in `main.rs`.  For each
character: position at the caret; if it has a pixel bounding box whose
right edge exceeds the width, reset the caret to
`(0, caret.y + advance_height)` and re-position the glyph there (without
advancing); otherwise, if it has a bounding box, advance the caret by the
advance width; if it has no bounding box, leave the caret unchanged.  The
glyph is pushed in every branch. -/
def Demo.layout_go (font : FontModel) (width : ℕ) (advance_height : ℚ) :
    Vector ℚ → List Char → List PositionedGlyph
  | _, [] => []
  | caret, c :: rest =>
    match font.pixel_bounding_box caret c with
    | some bb =>
      if (width : ℤ) < bb.max.x then
        ⟨c, ⟨0, caret.y + advance_height⟩⟩ ::
          Demo.layout_go font width advance_height ⟨0, caret.y + advance_height⟩ rest
      else
        ⟨c, caret⟩ ::
          Demo.layout_go font width advance_height
            ⟨caret.x + font.advance_width c, caret.y⟩ rest
    | none => ⟨c, caret⟩ :: Demo.layout_go font width advance_height caret rest

/-- Model of the advance-based `layout_grid` in `main.rs`: the caret starts
at `(0, ascent)` and `advance_height = ascent - descent + line_gap`.  The
input list stands for the NFC-normalized character sequence. -/
def Demo.layout_grid (font : FontModel) (width : ℕ) (text : List Char) :
    List PositionedGlyph :=
  Demo.layout_go font width
    (font.v_metrics.ascent - font.v_metrics.descent + font.v_metrics.line_gap)
    ⟨0, font.v_metrics.ascent⟩ text

/-- Model of `RogueFont` in `lib.rs`: the parsed font (with scale folded
in) and the probed maximal glyph width and height.  The atlas cache and GPU
texture are frame state that does not affect layout positions. -/
structure RogueFont where
  font : FontModel
  max_font_height : ℚ
  max_font_width : ℚ

/-- Model of the `Roguelib` state in `lib.rs`: the registered fonts keyed
by name, and the physical window dimensions the display reports. -/
structure Roguelib where
  fonts : List (String × RogueFont)
  width : ℕ
  height : ℕ

/-- A Rust panic (`expect`/`unwrap` failure) with its message: the process
aborts. -/
inductive Panicked where
  | panic (msg : String)
deriving DecidableEq

/-- What one `Roguelib::draw` call submits: the grid it built and the
positioned glyphs it lays out (the subsequent cache/vertex-buffer/draw
steps consume exactly these). -/
structure DrawOut where
  grid : LineGrid
  glyphs : List PositionedGlyph
deriving DecidableEq

/-- Model of `Roguelib::draw` in `lib.rs` up to the glyph layout: read the
physical dimensions, look the font up (`.expect("Font does not exist")`
panics when the name was never registered), build the `LineGrid` with cell
size `(max_font_width, max_font_height)` and padding `(0, ascent)`, and lay
the text out with `util.rs` `layout_grid`.  A panic is the `.error` case;
no draw is submitted in that case. -/
def Roguelib.draw (r : Roguelib) (fontName : String) (text : List Char) :
    Except Panicked DrawOut :=
  match r.fonts.lookup fontName with
  | none => .error (.panic ("Font does not exist"))
  | some rf =>
    let grid := LineGrid.new ⟨(r.width : ℚ), (r.height : ℚ)⟩
      ⟨rf.max_font_width, rf.max_font_height⟩ ⟨0, rf.font.v_metrics.ascent⟩
    .ok ⟨grid, Util.layout_grid rf.font r.width grid text⟩

/-- Modelled from the spec: the inverse that reconstructs `(row, col)` from
a pixel position, to be compared with `coordinates_for` (round-trip). -/
def grid_inverse (g : LineGrid) (p : Vector ℚ) : ℚ × ℚ :=
  ((p.y - g.grid_padding.y) / g.grid_dimensions.y,
   (p.x - g.grid_padding.x) / g.grid_dimensions.x)

/-- A concrete grid used to exercise the grid theorems. -/
def gW : LineGrid := ⟨⟨100, 100⟩, ⟨2, 3⟩, ⟨0, 0⟩, ⟨4, 5⟩⟩

/-- A concrete texture rectangle used to exercise the quad theorems. -/
def uvC : Rect ℚ := ⟨⟨0, 0⟩, ⟨1, 1⟩⟩

/-- A concrete screen rectangle used to exercise the quad theorems. -/
def srC : Rect ℤ := ⟨⟨0, 0⟩, ⟨10, 20⟩⟩

/-- A concrete cache lookup that resolves every glyph to `(uvC, srC)`. -/
def rfW : PositionedGlyph → Except CacheErr (Option (Rect ℚ × Rect ℤ)) :=
  fun _ => .ok (some (uvC, srC))

/-- A concrete font model: every glyph advances by 8; only the character
`a` has a pixel bounding box (8 wide, right edge at x = 8); ascent 10,
descent -2, line gap 1, so the line advance is 13. -/
def cFont : FontModel :=
  ⟨fun _ => 8,
   fun _ c => if c = ('a') then some ⟨⟨0, 0⟩, ⟨8, 10⟩⟩ else none,
   ⟨10, -2, 1⟩⟩

/-- A concrete registered font entry. -/
def cRF : RogueFont := ⟨cFont, 12, 8⟩

/-- A `Roguelib` state with one font registered under the name default. -/
def cRogue : Roguelib := ⟨[(("default"), cRF)], 1920, 1080⟩

/-- The grid the draw call on `cRogue` builds. -/
def cGrid : LineGrid :=
  LineGrid.new ⟨(cRogue.width : ℚ), (cRogue.height : ℚ)⟩
    ⟨cRF.max_font_width, cRF.max_font_height⟩ ⟨0, cRF.font.v_metrics.ascent⟩

/-- What the draw call on `cRogue` submits for the text a. -/
def cOut : DrawOut := ⟨cGrid, Util.layout_grid cRF.font cRogue.width cGrid [('a')]⟩

/-- A `Roguelib` state with no fonts registered. -/
def emptyRoguelib : Roguelib := ⟨[], 1920, 1080⟩

/-- Bridge between the executable `Rat.floor` used in the model and the
mathematical floor. -/
theorem rat_floor_eq_intFloor (q : ℚ) : q.floor = ⌊q⌋ :=
  (Rat.floor_def' q).trans Rat.floor_def.symm

/-- C1: for every `LineGrid` built from a screen size, cell size and
padding, `coordinates_for i` is `((i mod columns) * cell.x + padding.x,
(i div columns) * cell.y + padding.y)` with
`columns = floor((screen.x - padding.x) / cell.x)` (cast to u32); and for
screen 1920x1080, cell 24x32, padding (0,0) the totals are (80, 33) and
`coordinates_for 81 = (24, 32)`. -/
theorem C1_coordinates_formula (screen cell pad : Vector ℚ) (i : ℕ) :
    (LineGrid.new screen cell pad).coordinates_for i =
      ⟨((i % ((screen.x - pad.x) / cell.x).floor.toNat : ℕ) : ℚ) * cell.x + pad.x,
       ((i / ((screen.x - pad.x) / cell.x).floor.toNat : ℕ) : ℚ) * cell.y + pad.y⟩
    ∧ (LineGrid.new ⟨1920, 1080⟩ ⟨24, 32⟩ ⟨0, 0⟩).totals = ⟨80, 33⟩
    ∧ (LineGrid.new ⟨1920, 1080⟩ ⟨24, 32⟩ ⟨0, 0⟩).coordinates_for 81 = ⟨24, 32⟩ := by
  refine ⟨rfl, ?_, ?_⟩
  · simp only [LineGrid.new, Vector.mk.injEq]
    norm_num [Rat.floor_def']
    decide
  · simp only [LineGrid.new, LineGrid.coordinates_for, Vector.mk.injEq]
    norm_num [Rat.floor_def']
    decide

/-- C2: on a grid with positive cell dimensions and at least one column,
`coordinates_for` is injective on indices below `columns * rows`, and
`grid_inverse` reconstructs `(row, col) = (i div columns, i mod columns)`
exactly from the returned pixel position. -/
theorem C2_injective_roundtrip (g : LineGrid) (i j : ℕ)
    (hcw : 0 < g.grid_dimensions.x) (hch : 0 < g.grid_dimensions.y)
    (hcols : 1 ≤ g.totals.x)
    (hi : i < g.totals.x * g.totals.y) (hj : j < g.totals.x * g.totals.y) :
    (g.coordinates_for i = g.coordinates_for j → i = j)
    ∧ grid_inverse g (g.coordinates_for i) =
        (((i / g.totals.x : ℕ) : ℚ), ((i % g.totals.x : ℕ) : ℚ)) := by
  constructor
  · intro h
    have hx : ((i % g.totals.x : ℕ) : ℚ) * g.grid_dimensions.x + g.grid_padding.x
        = ((j % g.totals.x : ℕ) : ℚ) * g.grid_dimensions.x + g.grid_padding.x :=
      congrArg Vector.x h
    have hy : ((i / g.totals.x : ℕ) : ℚ) * g.grid_dimensions.y + g.grid_padding.y
        = ((j / g.totals.x : ℕ) : ℚ) * g.grid_dimensions.y + g.grid_padding.y :=
      congrArg Vector.y h
    have hx2 : ((i % g.totals.x : ℕ) : ℚ) = ((j % g.totals.x : ℕ) : ℚ) :=
      mul_right_cancel₀ hcw.ne' (by linarith)
    have hy2 : ((i / g.totals.x : ℕ) : ℚ) = ((j / g.totals.x : ℕ) : ℚ) :=
      mul_right_cancel₀ hch.ne' (by linarith)
    have hm : i % g.totals.x = j % g.totals.x := by exact_mod_cast hx2
    have hd : i / g.totals.x = j / g.totals.x := by exact_mod_cast hy2
    calc i = g.totals.x * (i / g.totals.x) + i % g.totals.x :=
          (Nat.div_add_mod i g.totals.x).symm
      _ = g.totals.x * (j / g.totals.x) + j % g.totals.x := by rw [hm, hd]
      _ = j := Nat.div_add_mod j g.totals.x
  · simp only [grid_inverse, LineGrid.coordinates_for, Prod.mk.injEq]
    constructor
    · field_simp
    · field_simp

/-- C2 witness: the round-trip and injectivity at the concrete grid `gW`
and indices 5 and 7. -/
theorem C2_witness :
    (gW.coordinates_for 5 = gW.coordinates_for 7 → 5 = 7)
    ∧ grid_inverse gW (gW.coordinates_for 5) =
        (((5 / gW.totals.x : ℕ) : ℚ), ((5 % gW.totals.x : ℕ) : ℚ)) :=
  C2_injective_roundtrip gW 5 7 (by decide) (by decide) (by decide)
    (by decide) (by decide)

/-- C10: `coordinates_for` is total only when `totals.x >= 1` (the checked
version agrees with it there and signals the division-by-zero panic
otherwise), and when the cell width exceeds the screen width minus the
padding, `LineGrid::new` yields `totals.x = 0`, on which every
`coordinates_for` call panics. -/
theorem C10_zero_columns (g : LineGrid) (i : ℕ) (screen cell pad : Vector ℚ)
    (j : ℕ) (hcell : 0 < cell.x) (hover : screen.x - pad.x < cell.x) :
    (1 ≤ g.totals.x → g.coordinates_for_checked i = some (g.coordinates_for i))
    ∧ (g.totals.x = 0 → g.coordinates_for_checked i = none)
    ∧ (LineGrid.new screen cell pad).totals.x = 0
    ∧ (LineGrid.new screen cell pad).coordinates_for_checked j = none := by
  have hzero : ((screen.x - pad.x) / cell.x).floor.toNat = 0 := by
    rw [rat_floor_eq_intFloor]
    have hlt : (screen.x - pad.x) / cell.x < 1 := (div_lt_one hcell).mpr hover
    have : ⌊(screen.x - pad.x) / cell.x⌋ < 1 := Int.floor_lt.mpr (by exact_mod_cast hlt)
    omega
  refine ⟨?_, ?_, hzero, ?_⟩
  · intro h
    have hne : g.totals.x ≠ 0 := by omega
    simp [LineGrid.coordinates_for_checked, checked_mod, checked_div, hne,
      LineGrid.coordinates_for]
  · intro h0
    simp [LineGrid.coordinates_for_checked, checked_mod, h0]
  · simp [LineGrid.coordinates_for_checked, checked_mod, LineGrid.new, hzero]

/-- C10 witness: the agreement at the concrete grid `gW` and the zero
columns of a 10x10 screen with 20x20 cells. -/
theorem C10_witness :
    (1 ≤ gW.totals.x → gW.coordinates_for_checked 3 = some (gW.coordinates_for 3))
    ∧ (gW.totals.x = 0 → gW.coordinates_for_checked 3 = none)
    ∧ (LineGrid.new ⟨10, 10⟩ ⟨20, 20⟩ ⟨0, 0⟩).totals.x = 0
    ∧ (LineGrid.new ⟨10, 10⟩ ⟨20, 20⟩ ⟨0, 0⟩).coordinates_for_checked 0 = none :=
  C10_zero_columns gW 3 ⟨10, 10⟩ ⟨20, 20⟩ ⟨0, 0⟩ 0 (by decide) (by norm_num)

/-- C3: the clip-space rectangle `create_text_vb` computes applies the spec
transform `clip.x = 2*(px/screen_width - 0.5)`,
`clip.y = 2*(1 - py/screen_height - 0.5)` to both the min and the max
corner of the glyph's screen rectangle, and a resolved glyph's quad in
`create_text_vb` is built from exactly that rectangle. -/
theorem C3_clip_transform (sw sh : ℚ) (sr : Rect ℤ) (uv : Rect ℚ)
    (rect_for : PositionedGlyph → Except CacheErr (Option (Rect ℚ × Rect ℤ)))
    (g : PositionedGlyph) (gs : List PositionedGlyph)
    (h : rect_for g = .ok (some (uv, sr))) :
    gl_rect_of sw sh sr =
      ⟨spec_clip sw sh ⟨(sr.min.x : ℚ), (sr.min.y : ℚ)⟩,
       spec_clip sw sh ⟨(sr.max.x : ℚ), (sr.max.y : ℚ)⟩⟩
    ∧ create_text_vb sw sh rect_for (g :: gs) =
        glyph_quad uv (gl_rect_of sw sh sr) ++ create_text_vb sw sh rect_for gs := by
  constructor
  · simp only [gl_rect_of, spec_clip, Rect.mk.injEq, Vector.mk.injEq]
    refine ⟨⟨by ring, by ring⟩, by ring, by ring⟩
  · simp [create_text_vb, h]

/-- C3 witness: the transform and the quad emission at a concrete screen
size, rectangle and cache lookup. -/
theorem C3_witness :
    gl_rect_of 100 50 srC =
      ⟨spec_clip 100 50 ⟨(srC.min.x : ℚ), (srC.min.y : ℚ)⟩,
       spec_clip 100 50 ⟨(srC.max.x : ℚ), (srC.max.y : ℚ)⟩⟩
    ∧ create_text_vb 100 50 rfW (⟨('a'), ⟨0, 0⟩⟩ :: []) =
        glyph_quad uvC (gl_rect_of 100 50 srC) ++ create_text_vb 100 50 rfW [] :=
  C3_clip_transform 100 50 srC uvC rfW ⟨('a'), ⟨0, 0⟩⟩ [] rfl

/-- C4: `create_text_vb` emits six vertices per resolved glyph and zero per
unresolved one (an `Err` or `Ok(None)` lookup is silently skipped), so the
output length is 6 times the number of resolved glyphs. -/
theorem C4_vertex_count (sw sh : ℚ)
    (rect_for : PositionedGlyph → Except CacheErr (Option (Rect ℚ × Rect ℤ)))
    (glyphs : List PositionedGlyph) :
    (create_text_vb sw sh rect_for glyphs).length =
      6 * (glyphs.filter (fun g => is_resolved (rect_for g))).length := by
  induction glyphs with
  | nil => rfl
  | cons g gs ih =>
    cases hr : rect_for g with
    | error e =>
      simp [create_text_vb, List.filter_cons, hr, is_resolved, ih]
    | ok o =>
      cases o with
      | none => simp [create_text_vb, List.filter_cons, hr, is_resolved, ih]
      | some p =>
        obtain ⟨uv, sr⟩ := p
        simp only [create_text_vb, List.filter_cons, hr, is_resolved,
          List.length_append, List.length_cons, ih, glyph_quad,
          List.length_cons, List.length_nil, if_pos]
        omega

/-- The two triangles of a quad over a non-degenerate clip rectangle share
exactly the positions `(min.x, max.y)` and `(max.x, min.y)` of that
rectangle. -/
theorem shared_positions_quad (uv : Rect ℚ) (a b c d : ℚ)
    (hab : a ≠ b) (hcd : c ≠ d) :
    shared_positions (glyph_quad uv ⟨⟨a, c⟩, ⟨b, d⟩⟩) = [⟨a, d⟩, ⟨b, c⟩] := by
  simp [shared_positions, tri1_positions, tri2_positions, glyph_quad,
    List.filter_cons, List.contains_cons, beq_iff_eq, Vector.mk.injEq,
    hab, hcd, Ne.symm hcd]

/-- The winding cross products of the two triangles of a quad agree, and
equal `-((min.y - max.y) * (max.x - min.x))` of the clip rectangle. -/
theorem winding_quad (uv : Rect ℚ) (gl : Rect ℚ) :
    winding1 (glyph_quad uv gl) =
      -((gl.min.y - gl.max.y) * (gl.max.x - gl.min.x))
    ∧ winding2 (glyph_quad uv gl) = winding1 (glyph_quad uv gl) := by
  constructor
  · simp [winding1, pos_at, glyph_quad, tri_cross, default_vertex]
    try ring
  · simp [winding1, winding2, pos_at, glyph_quad, tri_cross, default_vertex]
    try ring

/-- C5 counterexample: at screen 100x100 with screen rectangle
min (0,0), max (10,20), the quad's shared diagonal is
`[(-1, 3/5), (-4/5, 1)]` — the clip images of the pixel-space bottom-left
and top-right corners — and contains neither the clip image `(-1, 1)` of
the pixel-space top-left corner nor the clip image `(-4/5, 3/5)` of the
bottom-right corner, so the shared diagonal does not run from top-left to
bottom-right. -/
theorem C5_counterexample :
    shared_positions (glyph_quad uvC (gl_rect_of 100 100 srC)) =
      [⟨-1, 3/5⟩, ⟨-4/5, 1⟩]
    ∧ spec_clip 100 100 ⟨0, 0⟩ = ⟨-1, 1⟩
    ∧ spec_clip 100 100 ⟨10, 20⟩ = ⟨-4/5, 3/5⟩
    ∧ (⟨-1, 1⟩ : Vector ℚ) ∉
        shared_positions (glyph_quad uvC (gl_rect_of 100 100 srC))
    ∧ (⟨-4/5, 3/5⟩ : Vector ℚ) ∉
        shared_positions (glyph_quad uvC (gl_rect_of 100 100 srC)) := by
  have hgl : gl_rect_of 100 100 srC = ⟨⟨-1, 1⟩, ⟨-4/5, 3/5⟩⟩ := by
    simp only [gl_rect_of, srC, Rect.mk.injEq, Vector.mk.injEq]
    norm_num
  have hsh : shared_positions (glyph_quad uvC (gl_rect_of 100 100 srC)) =
      [⟨-1, 3/5⟩, ⟨-4/5, 1⟩] := by
    rw [hgl]
    exact shared_positions_quad uvC (-1) (-4/5) 1 (3/5) (by norm_num) (by norm_num)
  refine ⟨hsh, ?_, ?_, ?_, ?_⟩
  · simp only [spec_clip, Vector.mk.injEq]
    norm_num
  · simp only [spec_clip, Vector.mk.injEq]
    norm_num
  · rw [hsh]
    simp only [List.mem_cons, List.not_mem_nil, or_false, Vector.mk.injEq, not_or]
    norm_num
  · rw [hsh]
    simp only [List.mem_cons, List.not_mem_nil, or_false, Vector.mk.injEq, not_or]
    norm_num

/-- C5 (amended): for a non-degenerate screen rectangle on a positive
screen, the two triangles of the quad share the diagonal running from the
quad's pixel-space bottom-left corner to its top-right corner (not
top-left to bottom-right), and both triangles have the same winding cross
product, which is negative (consistent clockwise winding). -/
theorem C5_diagonal (sw sh : ℚ) (uv : Rect ℚ) (sr : Rect ℤ)
    (hsw : 0 < sw) (hsh : 0 < sh)
    (hx : sr.min.x < sr.max.x) (hy : sr.min.y < sr.max.y) :
    shared_positions (glyph_quad uv (gl_rect_of sw sh sr)) =
      [spec_clip sw sh ⟨(sr.min.x : ℚ), (sr.max.y : ℚ)⟩,
       spec_clip sw sh ⟨(sr.max.x : ℚ), (sr.min.y : ℚ)⟩]
    ∧ winding1 (glyph_quad uv (gl_rect_of sw sh sr)) =
        winding2 (glyph_quad uv (gl_rect_of sw sh sr))
    ∧ winding1 (glyph_quad uv (gl_rect_of sw sh sr)) < 0 := by
  have hqx : (sr.min.x : ℚ) < (sr.max.x : ℚ) := by exact_mod_cast hx
  have hqy : (sr.min.y : ℚ) < (sr.max.y : ℚ) := by exact_mod_cast hy
  have hdx : (sr.min.x : ℚ) / sw < (sr.max.x : ℚ) / sw := by gcongr
  have hdy : (sr.min.y : ℚ) / sh < (sr.max.y : ℚ) / sh := by gcongr
  have hAB : ((sr.min.x : ℚ) / sw - 1/2) * 2 < ((sr.max.x : ℚ) / sw - 1/2) * 2 := by
    linarith
  have hDC : (1 - (sr.max.y : ℚ) / sh - 1/2) * 2 <
      (1 - (sr.min.y : ℚ) / sh - 1/2) * 2 := by
    linarith
  have hglrw : gl_rect_of sw sh sr =
      ⟨⟨((sr.min.x : ℚ) / sw - 1/2) * 2, (1 - (sr.min.y : ℚ) / sh - 1/2) * 2⟩,
       ⟨((sr.max.x : ℚ) / sw - 1/2) * 2, (1 - (sr.max.y : ℚ) / sh - 1/2) * 2⟩⟩ := rfl
  refine ⟨?_, ?_, ?_⟩
  · rw [hglrw, shared_positions_quad uv _ _ _ _ hAB.ne hDC.ne']
    simp only [spec_clip, List.cons.injEq, Vector.mk.injEq, and_true]
    refine ⟨⟨by ring, by ring⟩, by ring, by ring⟩
  · exact (winding_quad uv (gl_rect_of sw sh sr)).2.symm
  · rw [(winding_quad uv (gl_rect_of sw sh sr)).1, hglrw]
    have h1 : (0 : ℚ) <
        ((1 - (sr.min.y : ℚ) / sh - 1/2) * 2 - (1 - (sr.max.y : ℚ) / sh - 1/2) * 2) *
          (((sr.max.x : ℚ) / sw - 1/2) * 2 - ((sr.min.x : ℚ) / sw - 1/2) * 2) :=
      mul_pos (by linarith) (by linarith)
    linarith [h1]

/-- C5 witness: the amended diagonal and winding facts at a concrete
screen size and rectangle. -/
theorem C5_witness :
    shared_positions (glyph_quad uvC (gl_rect_of 100 100 srC)) =
      [spec_clip 100 100 ⟨(srC.min.x : ℚ), (srC.max.y : ℚ)⟩,
       spec_clip 100 100 ⟨(srC.max.x : ℚ), (srC.min.y : ℚ)⟩]
    ∧ winding1 (glyph_quad uvC (gl_rect_of 100 100 srC)) =
        winding2 (glyph_quad uvC (gl_rect_of 100 100 srC))
    ∧ winding1 (glyph_quad uvC (gl_rect_of 100 100 srC)) < 0 :=
  C5_diagonal 100 100 uvC srC (by decide) (by decide) (by decide) (by decide)

/-- The advance-based layout never changes the number of glyphs: one output
glyph per input character, whatever branch is taken. -/
theorem layout_go_length (font : FontModel) (width : ℕ) (adv : ℚ) :
    ∀ (caret : Vector ℚ) (text : List Char),
      (Demo.layout_go font width adv caret text).length = text.length := by
  intro caret text
  induction text generalizing caret with
  | nil => rfl
  | cons c rest ih =>
    rcases hfb : font.pixel_bounding_box caret c with _ | bb <;>
      simp only [Demo.layout_go, hfb]
    · simp [ih]
    · split <;> simp [ih]

/-- C6: in the advance-based layout of `main.rs`, a character whose pixel
bounding box's right edge exceeds the target width is re-positioned at
`(0, caret.y + line_advance)` with
`line_advance = ascent - descent + line_gap`, and remains in the output
(the layout never drops a character: output length equals input length). -/
theorem C6_wrap_repositions (font : FontModel) (width : ℕ) (caret : Vector ℚ)
    (c : Char) (rest : List Char) (bb : Rect ℤ) (text : List Char)
    (hbb : font.pixel_bounding_box caret c = some bb)
    (hover : (width : ℤ) < bb.max.x) :
    Demo.layout_go font width
        (font.v_metrics.ascent - font.v_metrics.descent + font.v_metrics.line_gap)
        caret (c :: rest) =
      ⟨c, ⟨0, caret.y +
          (font.v_metrics.ascent - font.v_metrics.descent + font.v_metrics.line_gap)⟩⟩ ::
        Demo.layout_go font width
          (font.v_metrics.ascent - font.v_metrics.descent + font.v_metrics.line_gap)
          ⟨0, caret.y +
            (font.v_metrics.ascent - font.v_metrics.descent + font.v_metrics.line_gap)⟩
          rest
    ∧ (Demo.layout_grid font width text).length = text.length := by
  constructor
  · simp only [Demo.layout_go, hbb, if_pos hover]
  · exact layout_go_length font width _ _ text

/-- C6 witness: a concrete overflowing character (an `a` with right edge 8
against width 4) is re-positioned on the new line and nothing is
dropped. -/
theorem C6_witness :
    Demo.layout_go cFont 4
        (cFont.v_metrics.ascent - cFont.v_metrics.descent + cFont.v_metrics.line_gap)
        ⟨0, 10⟩ (('a') :: []) =
      ⟨('a'), ⟨0, (10 : ℚ) +
          (cFont.v_metrics.ascent - cFont.v_metrics.descent + cFont.v_metrics.line_gap)⟩⟩ ::
        Demo.layout_go cFont 4
          (cFont.v_metrics.ascent - cFont.v_metrics.descent + cFont.v_metrics.line_gap)
          ⟨0, (10 : ℚ) +
            (cFont.v_metrics.ascent - cFont.v_metrics.descent + cFont.v_metrics.line_gap)⟩
          []
    ∧ (Demo.layout_grid cFont 4 [('b')]).length = [('b')].length :=
  C6_wrap_repositions cFont 4 ⟨0, 10⟩ ('a') [] ⟨⟨0, 0⟩, ⟨8, 10⟩⟩ [('b')]
    rfl (by decide)

/-- C7 counterexample: with a font where the space has no pixel bounding
box and an advance width of 8, laying out a space followed by an `a` at
width 100 places both glyphs at the same x coordinate 0 — the caret was
not advanced after the space, although its advance width is 8. -/
theorem C7_counterexample :
    Demo.layout_grid cFont 100 [(' '), ('a')] =
      [⟨(' '), ⟨0, 10⟩⟩, ⟨('a'), ⟨0, 10⟩⟩]
    ∧ cFont.advance_width (' ') = 8 :=
  ⟨rfl, rfl⟩

/-- C7 (amended): the advance-based layout of `main.rs` advances the caret
by the glyph's advance width only for a character that has a pixel
bounding box and did not trigger the width overflow; a character with no
bounding box (such as a space) and a character that was wrap-repositioned
onto a new line leave the caret unchanged for the next character. -/
theorem C7_advance_only_unwrapped (font : FontModel) (width : ℕ)
    (caret : Vector ℚ) (c : Char) (rest : List Char) (bb : Rect ℤ) :
    (font.pixel_bounding_box caret c = none →
      Demo.layout_go font width
          (font.v_metrics.ascent - font.v_metrics.descent + font.v_metrics.line_gap)
          caret (c :: rest) =
        ⟨c, caret⟩ ::
          Demo.layout_go font width
            (font.v_metrics.ascent - font.v_metrics.descent + font.v_metrics.line_gap)
            caret rest)
    ∧ (font.pixel_bounding_box caret c = some bb → bb.max.x ≤ (width : ℤ) →
      Demo.layout_go font width
          (font.v_metrics.ascent - font.v_metrics.descent + font.v_metrics.line_gap)
          caret (c :: rest) =
        ⟨c, caret⟩ ::
          Demo.layout_go font width
            (font.v_metrics.ascent - font.v_metrics.descent + font.v_metrics.line_gap)
            ⟨caret.x + font.advance_width c, caret.y⟩ rest)
    ∧ (font.pixel_bounding_box caret c = some bb → (width : ℤ) < bb.max.x →
      Demo.layout_go font width
          (font.v_metrics.ascent - font.v_metrics.descent + font.v_metrics.line_gap)
          caret (c :: rest) =
        ⟨c, ⟨0, caret.y +
            (font.v_metrics.ascent - font.v_metrics.descent + font.v_metrics.line_gap)⟩⟩ ::
          Demo.layout_go font width
            (font.v_metrics.ascent - font.v_metrics.descent + font.v_metrics.line_gap)
            ⟨0, caret.y +
              (font.v_metrics.ascent - font.v_metrics.descent + font.v_metrics.line_gap)⟩
            rest) := by
  refine ⟨?_, ?_, ?_⟩
  · intro hnone
    simp only [Demo.layout_go, hnone]
  · intro hbb hle
    simp only [Demo.layout_go, hbb, if_neg (not_lt.mpr hle)]
  · intro hbb hover
    simp only [Demo.layout_go, hbb, if_pos hover]

/-- C7 witness: the no-bounding-box branch at a concrete space character:
the caret for the rest of the text is unchanged. -/
theorem C7_witness :
    Demo.layout_go cFont 100
        (cFont.v_metrics.ascent - cFont.v_metrics.descent + cFont.v_metrics.line_gap)
        ⟨0, 10⟩ ((' ') :: [('a')]) =
      ⟨(' '), ⟨0, 10⟩⟩ ::
        Demo.layout_go cFont 100
          (cFont.v_metrics.ascent - cFont.v_metrics.descent + cFont.v_metrics.line_gap)
          ⟨0, 10⟩ [('a')] :=
  (C7_advance_only_unwrapped cFont 100 ⟨0, 10⟩ (' ') [('a')]
    ⟨⟨0, 0⟩, ⟨0, 0⟩⟩).1 rfl

/-- C8 counterexample: calling `draw` with a font name that was never
registered panics with the `expect` message Font does not exist — the
call aborts instead of returning a recoverable error value. -/
theorem C8_counterexample :
    emptyRoguelib.draw ("arial") [('h'), ('i')] =
      .error (.panic ("Font does not exist")) := rfl

/-- C8 (amended): for every `Roguelib` state whose registry does not
contain the requested font name, `draw` panics with Font does not exist
before any drawing work happens: no partial draw is submitted, and no
recoverable error result is returned. -/
theorem C8_unknown_font_panics (r : Roguelib) (fontName : String)
    (text : List Char) (h : r.fonts.lookup fontName = none) :
    r.draw fontName text = .error (.panic ("Font does not exist")) := by
  simp only [Roguelib.draw, h]

/-- C8 witness: the panic at a concrete empty registry. -/
theorem C8_witness :
    emptyRoguelib.draw ("courier") [('a')] =
      .error (.panic ("Font does not exist")) :=
  C8_unknown_font_panics emptyRoguelib ("courier") [('a')] rfl

/-- Indexing into the `util.rs` layout: the glyph at position `i` is the
`i`-th character placed at `coordinates_for (index + i)`. -/
theorem layout_go_getElem (grid : LineGrid) (text : List Char) :
    ∀ (index i : ℕ),
      (Util.layout_go grid index text)[i]? =
        (text[i]?).map (fun c => ⟨c, grid.coordinates_for (index + i)⟩) := by
  induction text with
  | nil => intro index i; simp [Util.layout_go]
  | cons c rest ih =>
    intro index i
    cases i with
    | zero => simp [Util.layout_go]
    | succ n =>
      simp only [Util.layout_go, List.getElem?_cons_succ]
      rw [(by omega : index + (n + 1) = index + 1 + n)]
      exact ih (index + 1) n

/-- The position of the first cell of row 1: column 0, one cell height
below the padding. -/
theorem coordinates_for_row1 (g : LineGrid) (h : 1 ≤ g.totals.x) :
    g.coordinates_for g.totals.x =
      ⟨g.grid_padding.x, g.grid_dimensions.y + g.grid_padding.y⟩ := by
  simp only [LineGrid.coordinates_for, Nat.mod_self,
    Nat.div_self (by omega : 0 < g.totals.x), Vector.mk.injEq]
  push_cast
  constructor <;> ring

/-- C9: a successful `draw` lays the i-th (NFC-normalized) character of
the text out at `coordinates_for (columns + i)` of the grid it builds —
placement starts at the linear index `grid.totals.x`, so the first
character lands at row 1, column 0 (position
`(padding.x, cell.y + padding.y)`), never at index 0. -/
theorem C9_draw_start_index (r : Roguelib) (fontName : String)
    (text : List Char) (out : DrawOut)
    (hdraw : r.draw fontName text = .ok out) (i : ℕ) (c : Char)
    (hc : text[i]? = some c) :
    out.glyphs[i]? = some ⟨c, out.grid.coordinates_for (out.grid.totals.x + i)⟩
    ∧ (1 ≤ out.grid.totals.x →
        out.grid.coordinates_for out.grid.totals.x =
          ⟨out.grid.grid_padding.x,
           out.grid.grid_dimensions.y + out.grid.grid_padding.y⟩) := by
  cases hlook : r.fonts.lookup fontName with
  | none => simp [Roguelib.draw, hlook] at hdraw
  | some rf =>
    simp only [Roguelib.draw, hlook, Except.ok.injEq] at hdraw
    subst hdraw
    refine ⟨?_, fun h1 => coordinates_for_row1 _ h1⟩
    simp only [Util.layout_grid, layout_go_getElem, hc]
    rfl

/-- C9 witness: the concrete draw call on `cRogue` places the single
character of the text a at `coordinates_for (columns + 0)` of its grid. -/
theorem C9_witness :
    cOut.glyphs[0]? =
      some ⟨('a'), cOut.grid.coordinates_for (cOut.grid.totals.x + 0)⟩
    ∧ (1 ≤ cOut.grid.totals.x →
        cOut.grid.coordinates_for cOut.grid.totals.x =
          ⟨cOut.grid.grid_padding.x,
           cOut.grid.grid_dimensions.y + cOut.grid.grid_padding.y⟩) :=
  C9_draw_start_index cRogue ("default") [('a')] cOut rfl 0 ('a') rfl

end Rogue
